import Mathlib

/-!
Verification of the CardIO tutorial notebook `tutorials/IV.Research.ipynb`.

The notebook is a linear script; the definitions below are a shallow
embedding of the constants it assigns and of the five functions it defines
(`center_flip`, `make_data`, `aggregate_crops`, `get_trainable_variables`,
`calc_metrics`), faithful to the notebook's Python source.  NumPy arrays are
modelled as (nested) lists of rationals, `str(int)` as a verified decimal
printer, and fallible NumPy operations return `Except`.
-/

/-! ## Training constants (cells 32, 45, 47) -/

def BATCH_SIZE : Nat := 32

def EPOCHS : Nat := 300

def TEST_EACH_EPOCH : Nat := 20

/-- The iteration count `ITERATIONS = ((TRAIN_SIZE // BATCH_SIZE) + 1) * EPOCHS`; `TRAIN_SIZE`
is `len(eds.train)`, external to the notebook, so it is a parameter here. -/
def ITERATIONS (TRAIN_SIZE : Nat) : Nat :=
  ((TRAIN_SIZE / BATCH_SIZE) + 1) * EPOCHS

/-- The test frequency `TEST_EXEC_FOR = ITERATIONS // EPOCHS * TEST_EACH_EPOCH`. -/
def TEST_EXEC_FOR (TRAIN_SIZE : Nat) : Nat :=
  ITERATIONS TRAIN_SIZE / EPOCHS * TEST_EACH_EPOCH

/-- Little-endian decimal digits, with explicit fuel so that the kernel can
evaluate it; `decDigits` below instantiates the fuel. -/
def decDigitsGo : Nat → Nat → List Nat
  | 0, _ => []
  | _ + 1, 0 => []
  | fuel + 1, n + 1 => ((n + 1) % 10) :: decDigitsGo fuel ((n + 1) / 10)

/-- Little-endian decimal digits of a natural number. -/
def decDigits (n : Nat) : List Nat := decDigitsGo n n

/-- Decimal representation of a natural number, embedding Python's
`'{}'.format(n)` / `str(n)` on non-negative integers. -/
def natDec (n : Nat) : String :=
  if n = 0 then ("0") else String.mk ((decDigits n).reverse.map Nat.digitChar)

/-- The execution frequency string `STR_EXEC = '%' + str(TEST_EXEC_FOR)` (cell 45). -/
def STR_EXEC (TRAIN_SIZE : Nat) : String :=
  "%" ++ natDec (TEST_EXEC_FOR TRAIN_SIZE)

/-! ## Dataset paths (cell 24) -/

def PATH : String := "/notebooks/data/ECG/training2017"

/-- Whether `s` starts with `p` (stated over the character lists, so that
the kernel can evaluate it). -/
def strStartsWith (s p : String) : Bool := p.data.isPrefixOf s.data

/-- Whether `s` ends with `p` (stated over the character lists). -/
def strEndsWith (s p : String) : Bool := p.data.isSuffixOf s.data

/-- Embedding of `os.path.join` (POSIX) for a single relative or absolute
second component. -/
def joinPath (a b : String) : String :=
  if strStartsWith b ("/") then b
  else if a = "" then b
  else if strEndsWith a ("/") then a ++ b
  else a ++ ("/") ++ b

def SIGNALS_MASK : String := joinPath PATH ("A*.hea")

def LABELS_PATH : String := joinPath PATH ("REFERENCE.csv")

/-! ## Model configuration (cell 28) -/

/-- A Python scalar usable as a dict key. -/
inductive PyKey where
  | str : String → PyKey
  | int : Int → PyKey
deriving DecidableEq

def PyKey.isStr : PyKey → Bool
  | PyKey.str _ => true
  | PyKey.int _ => false

/-- The values of `model_config`: string literals, `C('...')` templates,
and opaque library objects (the inputs dict and `tf.ConfigProto`). -/
inductive ConfigVal where
  | str : String → ConfigVal
  | C : String → ConfigVal
  | inputsSpec : ConfigVal
  | sessionConfig : ConfigVal
deriving DecidableEq

/-- The `model_config` dictionary of cell 28, as an association list in
source order. -/
def model_config : List (PyKey × ConfigVal) :=
  [(PyKey.str ("inputs"), ConfigVal.inputsSpec),
   (PyKey.str ("initial_block/inputs"), ConfigVal.str ("signals")),
   (PyKey.str ("loss"), ConfigVal.str ("ce")),
   (PyKey.str ("input_block/filters"), ConfigVal.C ("input_filters")),
   (PyKey.str ("body/block/layout"), ConfigVal.C ("layout")),
   (PyKey.str ("body/filters"), ConfigVal.C ("filters")),
   (PyKey.str ("body/num_blocks"), ConfigVal.C ("blocks")),
   (PyKey.str ("session/config"), ConfigVal.sessionConfig),
   (PyKey.str ("device"), ConfigVal.C ("device")),
   (PyKey.str ("optimizer"), ConfigVal.str ("Adam"))]

/-! ## Research constants and the `mr.run` call (cells 47, 52) -/

def N_REPS : Nat := 5

def N_BRANCHES : Nat := 2

def N_WORKERS : Nat := 3

def GPU : List Nat := [1, 2, 3, 4, 5, 6]

/-- The keyword arguments of the single `mr.run(...)` call (cell 52). -/
structure RunArgs where
  n_reps : Nat
  n_iters : Nat
  workers : Nat
  gpu : List Nat
  branches : Nat
  name : String
  progress_bar : Bool
deriving DecidableEq

/-- The call `mr.run(n_reps=N_REPS, n_iters=ITERATIONS, workers=N_WORKERS,
gpu=GPU, branches=N_BRANCHES, name='ResNet_research', progress_bar=True)`. -/
def mr_run (TRAIN_SIZE : Nat) : RunArgs :=
  { n_reps := N_REPS
    n_iters := ITERATIONS TRAIN_SIZE
    workers := N_WORKERS
    gpu := GPU
    branches := N_BRANCHES
    name := "ResNet_research"
    progress_bar := true }

/-! ## `center_flip` (cell 35)

```python
def center_flip(signal):
    return np.random.choice(np.array([1, -1])) * (signal - np.mean(signal))
```

Signals are 1-D arrays of floats, modelled as `List ℚ`; `np.random.choice`
draws `1` or `-1`, modelled by the Boolean parameter `flip` (`false` draws
`1`, `true` draws `-1`). -/

/-- Embedding of `np.mean` on a 1-D array.  (On an empty array NumPy yields NaN; here
division by zero yields `0`, and theorems about the mean assume a non-empty
signal.) -/
def npMean (l : List ℚ) : ℚ := l.sum / l.length

def center_flip (flip : Bool) (signal : List ℚ) : List ℚ :=
  signal.map (fun x => (if flip then -1 else 1) * (x - npMean signal))

/-! ## `make_data` (cell 38)

```python
def make_data(batch, **kwagrs):
    n_reps = [signal.shape[0] for signal in batch.signal]
    signals = np.array([segment for signal in batch.signal for segment in signal])
    targets = np.repeat(batch.target, n_reps, axis=0)
    return {"feed_dict": {'signals': signals, 'labels': targets}}
```

Each entry of `batch.signal` is a 2-D array of crops whose first axis has
the crops, so it is modelled as a `List σ` of `σ`-valued segments; the
segment contents are irrelevant to `make_data`. -/

/-- The two components of a batch that `make_data` reads. -/
structure Batch (σ β : Type) where
  signal : List (List σ)
  target : List β
deriving DecidableEq

/-- The feed dict `{'signals': ..., 'labels': ...}` built by `make_data`. -/
structure FeedDict (σ β : Type) where
  signals : List σ
  labels : List β
deriving DecidableEq

/-- Embedding of `np.repeat(xs, reps, axis=0)` with a per-element repeat count: repeats
`xs[i]` exactly `reps[i]` times, and raises when the lengths disagree. -/
def npRepeat (xs : List β) (reps : List Nat) : Except String (List β) :=
  if xs.length = reps.length then
    Except.ok (((xs.zip reps).map (fun p => List.replicate p.2 p.1)).flatten)
  else
    Except.error ("operands could not be broadcast together")

def make_data (batch : Batch σ β) : Except String (FeedDict σ β) :=
  match npRepeat batch.target (batch.signal.map List.length) with
  | Except.error e => Except.error e
  | Except.ok targets => Except.ok { signals := batch.signal.flatten, labels := targets }

/-! ## `aggregate_crops` (cell 41)

```python
def aggregate_crops(arr, splits, agg_func, predictions=True, **kwargs):
    if predictions:
        arr -= np.max(arr, axis=1, keepdims=True)
        arr_exp = np.exp(arr)
        arr = (arr_exp / np.sum(arr_exp, axis=1, keepdims=True))
    arr = np.split(arr, np.cumsum(splits)[:-1])
    return np.array([agg_func(sig[:, 0]) for sig in arr])
```

`arr` is a 2-D array, modelled as a list of rows.  `np.exp` is a
floating-point library function; it is modelled as an explicit function
parameter `e : ℚ → ℚ` threaded through the embedding. -/

/-- Embedding of `np.max` of one row (`np.max(arr, axis=1)`); NumPy raises
on an empty row, where this returns `0`. -/
def rowMax : List ℚ → ℚ
  | [] => 0
  | x :: xs => xs.foldl max x

/-- The `if predictions:` block of `aggregate_crops`: subtract the row-wise
maximum, apply `exp`, divide by the row-wise sum, in source order. -/
def softmaxRows (e : ℚ → ℚ) (arr : List (List ℚ)) : List (List ℚ) :=
  let arr1 := arr.map (fun row => row.map (fun x => x - rowMax row))
  let arrExp := arr1.map (fun row => row.map e)
  arrExp.map (fun row => row.map (fun x => x / row.sum))

/-- Embedding of `np.split(arr, np.cumsum(splits)[:-1])`: cut `arr` at the partial sums
of `splits`, producing one piece when `splits` has at most one entry. -/
def npSplitCum (arr : List α) : List Nat → List (List α)
  | [] => [arr]
  | [_] => [arr]
  | s :: s2 :: rest => arr.take s :: npSplitCum (arr.drop s) (s2 :: rest)

/-- Embedding of `sig[:, 0]`, column 0 of a 2-D array; NumPy raises on a row without
columns, where this reads `0`.  Theorems assume non-empty rows. -/
def col0 (sig : List (List ℚ)) : List ℚ := sig.map (fun row => row.headD 0)

def aggregate_crops (e : ℚ → ℚ) (arr : List (List ℚ)) (splits : List Nat)
    (agg_func : List ℚ → ℚ) (predictions : Bool) : List ℚ :=
  let a := if predictions then softmaxRows e arr else arr
  (npSplitCum a splits).map (fun sig => agg_func (col0 sig))

/-- Evaluation of one list comprehension whose body may raise: the first
raised error propagates, as in Python. -/
def mapExcept (f : α → Except String β) : List α → Except String (List β)
  | [] => Except.ok []
  | x :: xs =>
    match f x with
    | Except.error er => Except.error er
    | Except.ok y =>
      match mapExcept f xs with
      | Except.error er => Except.error er
      | Except.ok ys => Except.ok (y :: ys)

/-- Variant of `aggregate_crops` with a fallible aggregation callback `agg_func`
(external code passed in by the pipeline), same body as `aggregate_crops`. -/
def aggregate_cropsE (e : ℚ → ℚ) (arr : List (List ℚ)) (splits : List Nat)
    (agg_func : List ℚ → Except String ℚ) (predictions : Bool) :
    Except String (List ℚ) :=
  let a := if predictions then softmaxRows e arr else arr
  mapExcept (fun sig => agg_func (col0 sig)) (npSplitCum a splits)

/-! ## Spec-side transformations, for comparison with the notebook's code -/

/-- The mean-centering signal transformation, stated directly: subtract the
signal's mean from every sample. -/
def meanCentering (signal : List ℚ) : List ℚ :=
  signal.map (fun x => x - npMean signal)

/-- The standard max-stabilised softmax of one row, stated directly as a
single formula (with `e` in place of `exp`). -/
def softmaxSpec (e : ℚ → ℚ) (row : List ℚ) : List ℚ :=
  row.map (fun x => e (x - rowMax row) / (row.map (fun y => e (y - rowMax row))).sum)

/-- Row-wise softmax, stated directly. -/
def softmaxRowsSpec (e : ℚ → ℚ) (arr : List (List ℚ)) : List (List ℚ) :=
  arr.map (softmaxSpec e)

/-- The consecutive block decomposition: block `i` of `arr` under `splits`
starts after the first `i` split sizes and has `splits[i]` rows. -/
def blockAt (arr : List α) (splits : List Nat) (i : Nat) : List α :=
  (arr.drop ((splits.take i).sum)).take (splits.getD i 0)

/-! ## Helper lemmas about decimal printing -/

theorem decDigitsGo_eq (fuel n : Nat) (h : n ≤ fuel) :
    decDigitsGo fuel n = Nat.digits 10 n := by
  induction fuel generalizing n with
  | zero =>
    interval_cases n
    simp [decDigitsGo]
  | succ fuel ih =>
    cases n with
    | zero => simp [decDigitsGo]
    | succ n =>
      rw [decDigitsGo, Nat.digits_def' (by norm_num : (1:Nat) < 10) (Nat.succ_pos n),
        ih _ (by omega)]

theorem decDigits_eq (n : Nat) : decDigits n = Nat.digits 10 n :=
  decDigitsGo_eq n n (Nat.le_refl n)

theorem digitChar_bounded_inj :
    ∀ a < 10, ∀ b < 10, Nat.digitChar a = Nat.digitChar b → a = b := by decide

theorem map_digitChar_inj (l1 l2 : List Nat) (h1 : ∀ x ∈ l1, x < 10)
    (h2 : ∀ x ∈ l2, x < 10)
    (h : l1.map Nat.digitChar = l2.map Nat.digitChar) : l1 = l2 := by
  induction l1 generalizing l2 with
  | nil => cases l2 <;> simp_all
  | cons x xs ih =>
    cases l2 with
    | nil => simp_all
    | cons y ys =>
      simp only [List.map_cons, List.cons.injEq] at h
      have hx := digitChar_bounded_inj x (h1 x (by simp)) y (h2 y (by simp)) h.1
      have hys := ih ys (fun z hz => h1 z (by simp [hz])) (fun z hz => h2 z (by simp [hz])) h.2
      simp [hx, hys]

theorem decDigits_lt (n : Nat) : ∀ d ∈ decDigits n, d < 10 := by
  rw [decDigits_eq]
  intro d hd
  exact Nat.digits_lt_base (by norm_num) hd

theorem natDec_injective : Function.Injective natDec := by
  intro m n h
  unfold natDec at h
  by_cases hm : m = 0 <;> by_cases hn : n = 0 <;> simp [hm, hn] at h ⊢
  · -- m = 0, n ≠ 0
    exfalso
    have h0 : ("0" : String) = String.mk ['0'] := rfl
    rw [h0] at h
    have hdata : (['0'] : List Char) = (List.map Nat.digitChar (decDigits n)).reverse := by
      exact congrArg String.data h
    have hmap : List.map Nat.digitChar (decDigits n) = ['0'] := by
      have := congrArg List.reverse hdata
      simpa using this.symm
    have : decDigits n = [0] :=
      map_digitChar_inj _ _ (decDigits_lt n) (by simp) (by simpa using hmap)
    rw [decDigits_eq] at this
    have := congrArg (Nat.ofDigits 10) this
    rw [Nat.ofDigits_digits] at this
    simp [Nat.ofDigits] at this
    exact hn this
  · -- m ≠ 0, n = 0 (symmetric)
    exfalso
    have h0 : ("0" : String) = String.mk ['0'] := rfl
    rw [h0] at h
    have hdata : (List.map Nat.digitChar (decDigits m)).reverse = (['0'] : List Char) := by
      exact congrArg String.data h
    have hmap : List.map Nat.digitChar (decDigits m) = ['0'] := by
      have := congrArg List.reverse hdata
      simpa using this
    have : decDigits m = [0] :=
      map_digitChar_inj _ _ (decDigits_lt m) (by simp) (by simpa using hmap)
    rw [decDigits_eq] at this
    have := congrArg (Nat.ofDigits 10) this
    rw [Nat.ofDigits_digits] at this
    simp [Nat.ofDigits] at this
    exact hm this
  · -- both nonzero
    have hdata : (List.map Nat.digitChar (decDigits m)).reverse
        = (List.map Nat.digitChar (decDigits n)).reverse := congrArg String.data h
    have hmap : List.map Nat.digitChar (decDigits m) = List.map Nat.digitChar (decDigits n) := by
      have := congrArg List.reverse hdata
      simpa using this
    have hdd : decDigits m = decDigits n :=
      map_digitChar_inj _ _ (decDigits_lt m) (decDigits_lt n) hmap
    rw [decDigits_eq, decDigits_eq] at hdd
    have := congrArg (Nat.ofDigits 10) hdd
    rwa [Nat.ofDigits_digits, Nat.ofDigits_digits] at this

theorem append_pct_cancel (s : String) (hs : "%" ++ s = "%40") : s = "40" := by
  have hd := congrArg String.data hs
  rw [String.data_append] at hd
  cases s with
  | mk l =>
    have hl : l = ['4', '0'] := by simpa using hd
    rw [hl]

/-- C1: for every positive `TRAIN_SIZE`, `STR_EXEC` is the character `%`
followed by the decimal representation of the positive integer
`TEST_EXEC_FOR`, `TEST_EXEC_FOR` equals
`(TRAIN_SIZE // BATCH_SIZE + 1) * TEST_EACH_EPOCH` exactly (the integer
division by `EPOCHS` cancels), and `STR_EXEC = "%40"` exactly when
`TRAIN_SIZE // BATCH_SIZE = 1`. -/
theorem strExec_c1 (TRAIN_SIZE : Nat) (_h0 : 0 < TRAIN_SIZE) :
    STR_EXEC TRAIN_SIZE = "%" ++ natDec (TEST_EXEC_FOR TRAIN_SIZE)
    ∧ TEST_EXEC_FOR TRAIN_SIZE = (TRAIN_SIZE / BATCH_SIZE + 1) * TEST_EACH_EPOCH
    ∧ 0 < TEST_EXEC_FOR TRAIN_SIZE
    ∧ (STR_EXEC TRAIN_SIZE = "%40" ↔ TRAIN_SIZE / BATCH_SIZE = 1) := by
  have hT : TEST_EXEC_FOR TRAIN_SIZE = (TRAIN_SIZE / BATCH_SIZE + 1) * TEST_EACH_EPOCH := by
    unfold TEST_EXEC_FOR ITERATIONS
    rw [Nat.mul_div_cancel _ (by norm_num [EPOCHS] : 0 < EPOCHS)]
  refine ⟨rfl, hT, ?_, ?_⟩
  · rw [hT]
    simp [TEST_EACH_EPOCH]
  · constructor
    · intro h
      have h40 : natDec (TEST_EXEC_FOR TRAIN_SIZE) = natDec 40 := by
        have := append_pct_cancel _ h
        rw [this]
        decide
      have he := natDec_injective h40
      rw [hT] at he
      revert he
      norm_num [BATCH_SIZE, TEST_EACH_EPOCH]
      omega
    · intro h
      have he : TEST_EXEC_FOR TRAIN_SIZE = 40 := by
        rw [hT, h]
        decide
      unfold STR_EXEC
      rw [he]
      decide

theorem strExec_c1_witness :
    0 < 40 ∧ STR_EXEC 40 = "%40" :=
  ⟨by decide, ((strExec_c1 40 (by decide)).2.2.2).mpr (by decide)⟩

/-- C5: the signals mask is the data directory joined with a glob pattern
ending in `.hea`, and the labels path is the data directory joined with
exactly `REFERENCE.csv`. -/
theorem dataset_paths_c5 :
    SIGNALS_MASK = joinPath PATH ("A*.hea")
    ∧ SIGNALS_MASK = PATH ++ ("/") ++ ("A*.hea")
    ∧ strEndsWith SIGNALS_MASK (".hea") = true
    ∧ LABELS_PATH = joinPath PATH ("REFERENCE.csv")
    ∧ LABELS_PATH = PATH ++ ("/") ++ ("REFERENCE.csv") := by
  refine ⟨rfl, by decide, by decide, rfl, by decide⟩

/-- C6: the parallelism settings are exactly the parameters of the single
`mr.run` call: `workers = N_WORKERS = 3`, `branches = N_BRANCHES = 2`,
`gpu = GPU = [1, 2, 3, 4, 5, 6]`, `n_reps = N_REPS = 5` and
`n_iters = ITERATIONS`. -/
theorem run_args_c6 (ts : Nat) :
    (mr_run ts).workers = N_WORKERS ∧ N_WORKERS = 3
    ∧ (mr_run ts).branches = N_BRANCHES ∧ N_BRANCHES = 2
    ∧ (mr_run ts).gpu = GPU ∧ GPU = [1, 2, 3, 4, 5, 6]
    ∧ (mr_run ts).n_reps = N_REPS ∧ N_REPS = 5
    ∧ (mr_run ts).n_iters = ITERATIONS ts :=
  ⟨rfl, rfl, rfl, rfl, rfl, rfl, rfl, rfl, rfl⟩

/-- C7: every key of the `model_config` dictionary is a string, and the
keys are exactly the ten string keys of cell 28 in source order. -/
theorem model_config_keys_c7 :
    (model_config.map Prod.fst).all PyKey.isStr = true
    ∧ model_config.map Prod.fst =
      [PyKey.str ("inputs"), PyKey.str ("initial_block/inputs"), PyKey.str ("loss"),
       PyKey.str ("input_block/filters"), PyKey.str ("body/block/layout"),
       PyKey.str ("body/filters"), PyKey.str ("body/num_blocks"),
       PyKey.str ("session/config"), PyKey.str ("device"), PyKey.str ("optimizer")] := by
  refine ⟨by decide, by decide⟩

/-! ## Properties of the notebook-defined functions -/

theorem sum_map_sub_const (l : List ℚ) (m : ℚ) :
    (l.map (fun x => x - m)).sum = l.sum - l.length * m := by
  induction l with
  | nil => simp
  | cons x xs ih =>
    simp [ih]
    ring

/-- C8: for every signal and every outcome of the internal random sign
choice, `center_flip` returns `signal - mean(signal)` or its negation; the
mean of the result is zero (exact arithmetic, non-empty signal), and the
elementwise absolute values do not depend on the random choice. -/
theorem center_flip_c8 (flip : Bool) (signal : List ℚ) (hne : signal ≠ []) :
    (center_flip flip signal = signal.map (fun x => x - npMean signal)
      ∨ center_flip flip signal = signal.map (fun x => -(x - npMean signal)))
    ∧ npMean (center_flip flip signal) = 0
    ∧ ∀ flip2 : Bool,
        (center_flip flip signal).map (fun x => |x|)
          = (center_flip flip2 signal).map (fun x => |x|) := by
  have hlen : ((signal.length : ℚ)) ≠ 0 :=
    Nat.cast_ne_zero.mpr (List.length_pos.mpr hne).ne'
  have hsum : ∀ c : ℚ, (signal.map (fun x => c * (x - npMean signal))).sum = 0 := by
    intro c
    rw [List.sum_map_mul_left, sum_map_sub_const]
    unfold npMean
    field_simp
  refine ⟨?_, ?_, ?_⟩
  · cases flip with
    | false =>
      left
      unfold center_flip
      simp
    | true =>
      right
      unfold center_flip
      simp
  · unfold npMean
    unfold center_flip
    rw [hsum]
    simp
  · intro flip2
    unfold center_flip
    cases flip <;> cases flip2 <;> simp [abs_mul, abs_sub_comm]

theorem center_flip_c8_witness :
    ([1, 3] : List ℚ) ≠ [] ∧ npMean (center_flip true [1, 3]) = 0 :=
  ⟨by simp, (center_flip_c8 true [1, 3] (by simp)).2.1⟩

theorem zip_repeat_swap (sig : List (List σ)) (tgt : List β) :
    (tgt.zip (sig.map List.length)).map (fun p => List.replicate p.2 p.1)
      = (sig.zip tgt).map (fun p => List.replicate p.1.length p.2) := by
  induction sig generalizing tgt with
  | nil => simp
  | cons s ss ih =>
    cases tgt with
    | nil => simp
    | cons t ts => simp [ih]

theorem labels_length (sig : List (List σ)) (tgt : List β) (h : sig.length = tgt.length) :
    (((sig.zip tgt).map (fun p => List.replicate p.1.length p.2)).flatten).length
      = (sig.map List.length).sum := by
  induction sig generalizing tgt with
  | nil => simp
  | cons s ss ih =>
    cases tgt with
    | nil => simp at h
    | cons t ts =>
      simp at h
      simp [ih ts h]

/-- C9: with exactly one label per signal, `make_data` returns a feed dict
whose `signals` array flattens the crops, whose `labels` array repeats the
i-th signal's target `signal.shape[0]` times in signal order, and both
arrays have length equal to the sum of the crop counts. -/
theorem make_data_c9 {σ β : Type} (batch : Batch σ β)
    (h : batch.target.length = batch.signal.length) :
    make_data batch = Except.ok
      { signals := batch.signal.flatten,
        labels := ((batch.signal.zip batch.target).map
          (fun p => List.replicate p.1.length p.2)).flatten }
    ∧ batch.signal.flatten.length = (batch.signal.map List.length).sum
    ∧ (((batch.signal.zip batch.target).map
          (fun p => List.replicate p.1.length p.2)).flatten).length
        = (batch.signal.map List.length).sum := by
  refine ⟨?_, List.length_flatten _, labels_length _ _ h.symm⟩
  unfold make_data npRepeat
  rw [if_pos (by simp [h]), zip_repeat_swap]

theorem make_data_c9_witness :
    (["A", "B"] : List String).length = ([[1, 2], [3]] : List (List Nat)).length
    ∧ make_data ({ signal := [[1, 2], [3]], target := ["A", "B"] } : Batch Nat String)
        = Except.ok { signals := [1, 2, 3], labels := ["A", "A", "B"] } :=
  ⟨rfl, ((make_data_c9 _ rfl).1).trans (congrArg Except.ok (by decide))⟩

theorem blockAt_cons (arr : List α) (s : Nat) (tl : List Nat) (i : Nat) :
    blockAt arr (s :: tl) (i + 1) = blockAt (arr.drop s) tl i := by
  simp [blockAt, List.drop_drop, Nat.add_comm]

theorem npSplitCum_blocks (splits : List Nat) (arr : List α) (hne : splits ≠ [])
    (hsum : splits.sum = arr.length) :
    npSplitCum arr splits = (List.range splits.length).map (blockAt arr splits) := by
  induction splits generalizing arr with
  | nil => exact absurd rfl hne
  | cons s rest ih =>
    cases rest with
    | nil =>
      have hs : s = arr.length := by simpa using hsum
      simp [npSplitCum, blockAt, hs, List.range_succ]
    | cons s2 rest2 =>
      rw [npSplitCum]
      have hsum2 : (s2 :: rest2).sum = (arr.drop s).length := by
        simp at hsum ⊢
        omega
      rw [ih (arr.drop s) (by simp) hsum2]
      rw [show (s :: s2 :: rest2).length = (s2 :: rest2).length + 1 from rfl,
        List.range_succ_eq_map, List.map_cons, List.map_map]
      refine List.cons_eq_cons.mpr ⟨?_, ?_⟩
      · simp [blockAt]
      · apply List.map_congr_left
        intro i _
        simp [Function.comp, Nat.succ_eq_add_one, blockAt_cons]

/-- C10: with `predictions=False`, non-empty `splits` of positive sizes
summing to the number of rows, `aggregate_crops` returns one entry per
split, the i-th being `agg_func` applied to column 0 of the i-th
consecutive block of `splits[i]` rows. -/
theorem aggregate_crops_c10 (e : ℚ → ℚ) (arr : List (List ℚ)) (splits : List Nat)
    (agg_func : List ℚ → ℚ) (hne : splits ≠ [])
    (_hpos : ∀ s ∈ splits, 0 < s) (hsum : splits.sum = arr.length)
    (_hrows : ∀ row ∈ arr, row ≠ []) :
    aggregate_crops e arr splits agg_func false
      = (List.range splits.length).map
          (fun i => agg_func (col0 (blockAt arr splits i)))
    ∧ (aggregate_crops e arr splits agg_func false).length = splits.length := by
  have hb := npSplitCum_blocks splits arr hne hsum
  unfold aggregate_crops
  simp only [Bool.false_eq_true, if_false]
  rw [hb, List.map_map]
  exact ⟨rfl, by simp⟩

theorem aggregate_crops_c10_witness :
    ([1, 2] : List Nat) ≠ []
    ∧ aggregate_crops id [[1, 10], [2, 20], [3, 30]] [1, 2] List.sum false
        = (List.range 2).map
            (fun i => List.sum (col0 (blockAt [[1, 10], [2, 20], [3, 30]] [1, 2] i))) :=
  ⟨by decide,
   (aggregate_crops_c10 id [[1, 10], [2, 20], [3, 30]] [1, 2] List.sum
     (by decide) (by decide) (by decide) (by decide)).1⟩

/-- The `if predictions:` block of `aggregate_crops` computes exactly the
row-wise max-stabilised softmax stated as a single formula. -/
theorem softmaxRows_eq_spec (e : ℚ → ℚ) (arr : List (List ℚ)) :
    softmaxRows e arr = softmaxRowsSpec e arr := by
  unfold softmaxRows softmaxRowsSpec softmaxSpec
  simp [List.map_map, Function.comp_def]

/-- C2 (amended): the notebook's computations bottom out in third-party
primitives, but notebook-defined functions do implement their own
transformations: `center_flip` is mean-centering composed with an optional
sign flip, and the `predictions=True` path of `aggregate_crops` applies the
row-wise softmax before aggregating. -/
theorem notebook_transformations_c2 (e : ℚ → ℚ) (sig : List ℚ) (arr : List (List ℚ))
    (splits : List Nat) (agg_func : List ℚ → ℚ) :
    center_flip false sig = meanCentering sig
    ∧ center_flip true sig = (meanCentering sig).map (fun x => -x)
    ∧ aggregate_crops e arr splits agg_func true
        = (npSplitCum (softmaxRowsSpec e arr) splits).map (fun sig2 => agg_func (col0 sig2)) := by
  refine ⟨?_, ?_, ?_⟩
  · simp [center_flip, meanCentering]
  · simp [center_flip, meanCentering, List.map_map, Function.comp, neg_sub]
  · unfold aggregate_crops
    rw [if_pos rfl, softmaxRows_eq_spec]

/-- C2 (counterexample): the notebook-defined `center_flip` is itself a
non-trivial numerical signal transformation: at `[0, 4]` it computes the
mean-centering transformation, which changes the data. -/
theorem center_flip_transforms_c2 :
    center_flip false ([0, 4] : List ℚ) = meanCentering [0, 4]
    ∧ meanCentering ([0, 4] : List ℚ) ≠ [0, 4] := by
  constructor
  · simp [center_flip, meanCentering]
  · norm_num [meanCentering, npMean]

/-- C3 (counterexample): a conditional branch of the notebook's own code
evaluates during a notebook-defined computation: the result of
`aggregate_crops` differs between `predictions=True` and
`predictions=False` on the concrete input `[[0, 1]]`. -/
theorem aggregate_crops_branch_c3 :
    aggregate_crops (fun x => x + 2) [[0, 1]] [1] List.sum true
      ≠ aggregate_crops (fun x => x + 2) [[0, 1]] [1] List.sum false := by
  norm_num [aggregate_crops, softmaxRows, rowMax, npSplitCum, col0]

/-- C3 (amended): the notebook defines no data structures of its own and
its cells run sequentially, but its helper functions do contain control
flow: `aggregate_crops` branches on its `predictions` flag - with
`predictions=False` the softmax machinery is never evaluated (the result
is independent of the `exp` model), while the flag changes the result. -/
theorem aggregate_crops_condition_c3 (e e2 : ℚ → ℚ) (arr : List (List ℚ))
    (splits : List Nat) (agg_func : List ℚ → ℚ) :
    aggregate_crops e arr splits agg_func false
      = aggregate_crops e2 arr splits agg_func false
    ∧ aggregate_crops id [[0, 2]] [1] List.sum true
      ≠ aggregate_crops id [[0, 2]] [1] List.sum false := by
  constructor
  · rfl
  · norm_num [aggregate_crops, softmaxRows, rowMax, npSplitCum, col0]

theorem npSplitCum_ne_nil (arr : List α) (splits : List Nat) :
    ∃ l0 rest, npSplitCum arr splits = l0 :: rest := by
  match splits with
  | [] => exact ⟨arr, [], rfl⟩
  | [s] => exact ⟨arr, [], rfl⟩
  | s :: s2 :: r => exact ⟨arr.take s, _, rfl⟩

/-- C4: the notebook's functions contain no error handling: a failure of
a contained operation (`np.repeat` with mismatched lengths in `make_data`;
a raising `agg_func` callback in `aggregate_crops`) propagates unchanged
to the caller. -/
theorem error_propagation_c4 :
    (∀ {σ β : Type} (batch : Batch σ β) (er : String),
        npRepeat batch.target (batch.signal.map List.length) = Except.error er
        → make_data batch = Except.error er)
    ∧ (∀ (e : ℚ → ℚ) (arr : List (List ℚ)) (splits : List Nat)
        (agg_func : List ℚ → Except String ℚ) (er : String),
        (∀ x, agg_func x = Except.error er)
        → aggregate_cropsE e arr splits agg_func false = Except.error er) := by
  constructor
  · intro σ β batch er h
    unfold make_data
    rw [h]
  · intro e arr splits agg_func er h
    unfold aggregate_cropsE
    obtain ⟨l0, rest, heq⟩ := npSplitCum_ne_nil arr splits
    simp only [Bool.false_eq_true, if_false, heq, mapExcept, h]

theorem error_propagation_c4_witness :
    npRepeat (["A"] : List String) [1, 1]
        = Except.error ("operands could not be broadcast together")
    ∧ make_data ({ signal := [[1], [2]], target := ["A"] } : Batch Nat String)
        = Except.error ("operands could not be broadcast together")
    ∧ aggregate_cropsE id [[1]] [1] (fun _ => Except.error ("agg failed")) false
        = Except.error ("agg failed") :=
  ⟨rfl,
   (error_propagation_c4).1 ({ signal := [[1], [2]], target := ["A"] } : Batch Nat String)
     ("operands could not be broadcast together") rfl,
   (error_propagation_c4).2 id [[1]] [1] (fun _ => Except.error ("agg failed"))
     ("agg failed") (fun _ => rfl)⟩
